import Mathlib

/-!
Shallow embedding of the niri state reducer of waybar-niri-windows
(src/niri/niri_state.go, src/niri/niri_event.go, src/niri/niri_types.go),
together with theorems settling the frozen claims about it.

Modelling conventions:
* Go `uint64` ids are embedded as `Nat`; the reserved sentinel
  `None = 0xffffffffffffffff` becomes the constant `noneId`.  Ids are only
  ever compared for equality, never used arithmetically.
* Go maps (`map[uint64]*Workspace`, `map[uint64]*Window`) are embedded as
  association lists `List (Nat × α)` with Go-map operations: insert
  replaces the binding of an existing key (and otherwise appends), lookup
  returns the first binding, delete removes the key.  In-place mutation
  through a pointer obtained from a lookup is embedded as `mapModify`
  (rewrite the value stored at the key); mutation of every value inside a
  `range` loop is embedded as `mapMapValues`.
* `float64` fields of `WindowLayout` are embedded as `Int`: the reducer
  and its views never do floating-point arithmetic on them; the only read
  is the `int(...)` truncation used as a sort key, so the embedded value
  is that truncation.
* A nil-pointer dereference (Go panic) is embedded by making `update`
  return `Option State`, with `none` standing for the crash.
-/

namespace WNW

/-- Sentinel id meaning "none", `const None = uint64(0xffffffffffffffff)`. -/
def noneId : Nat := 0xffffffffffffffff

/-- A moment in time (niri_types.go `Timestamp`). -/
structure Timestamp where
  secs : Nat
  nanos : Nat
deriving DecidableEq

/-- 2D vector (niri_types.go `Vec2[T]`). -/
structure Vec2 (α : Type) where
  x : α
  y : α
deriving DecidableEq

/-- Position and size related properties of a Window (niri_types.go
`WindowLayout`).  The `float64` components are embedded as `Int`, see the
module conventions. -/
structure WindowLayout where
  posInScrollingLayout : Option (Vec2 Nat)
  tileSize : Vec2 Int
  windowSize : Vec2 Int
  tilePosInWorkspaceView : Option (Vec2 Int)
  windowOffsetInTile : Vec2 Int
deriving DecidableEq

/-- Toplevel window (niri_types.go `Window`). -/
structure Window where
  id : Nat
  title : Option String
  appId : Option String
  pid : Option Int
  workspaceId : Option Nat
  isFocused : Bool
  isFloating : Bool
  isUrgent : Bool
  layout : WindowLayout
  focusTimestamp : Option Timestamp
deriving DecidableEq

/-- A workspace (niri_types.go `Workspace`). -/
structure Workspace where
  id : Nat
  index : Nat
  name : Option String
  output : Option String
  isUrgent : Bool
  isActive : Bool
  isFocused : Bool
  activeWindowId : Option Nat
deriving DecidableEq

/-- Go map insert `m[k] = v`: replace the binding of `k` when present,
otherwise append a new binding. -/
def mapInsert {α : Type} (k : Nat) (v : α) : List (Nat × α) → List (Nat × α)
  | [] => [(k, v)]
  | kv :: rest => if kv.1 = k then (k, v) :: rest else kv :: mapInsert k v rest

/-- Go map read `m[k]` in its comma-ok form: the first binding of `k`. -/
def mapLookup {α : Type} (k : Nat) : List (Nat × α) → Option α
  | [] => none
  | kv :: rest => if kv.1 = k then some kv.2 else mapLookup k rest

/-- Go `delete(m, k)`. -/
def mapDelete {α : Type} (k : Nat) (m : List (Nat × α)) : List (Nat × α) :=
  m.filter (fun kv => kv.1 ≠ k)

/-- Mutation through the pointer returned by a map lookup: rewrite the
value stored at key `k` (first binding). -/
def mapModify {α : Type} (k : Nat) (f : α → α) : List (Nat × α) → List (Nat × α)
  | [] => []
  | kv :: rest => if kv.1 = k then (kv.1, f kv.2) :: rest else kv :: mapModify k f rest

/-- Mutation of every value inside a `for _, v := range m` loop. -/
def mapMapValues {α : Type} (f : α → α) (m : List (Nat × α)) : List (Nat × α) :=
  m.map (fun kv => (kv.1, f kv.2))

/-- Whether key `k` is present, Go `_, ok := m[k]`. -/
def mapContains {α : Type} (k : Nat) (m : List (Nat × α)) : Bool :=
  (mapLookup k m).isSome

/-- The reducer state (niri_state.go `State`); the mutex and the
`onUpdate` callback registry carry no model state and are omitted. -/
structure State where
  currentWorkspaceId : Nat
  currentWindowId : Nat
  workspaces : List (Nat × Workspace)
  windows : List (Nat × Window)
  needsRedraw : Bool
deriving DecidableEq

/-- niri_state.go `NewNiriState`. -/
def NewNiriState : State :=
  { currentWorkspaceId := noneId
    currentWindowId := noneId
    workspaces := []
    windows := []
    needsRedraw := false }

/-- The closed set of decoded compositor events (niri_event.go), plus
`windowFocusTimestampChanged` whose struct declaration is outside the
provided sources; its two fields (`Id uint64`,
`FocusTimestamp *Timestamp`) are pinned by its handler in
niri_state.go lines 143-149. -/
inductive Event where
  | workspacesChanged (workspaces : List Workspace)
  | workspaceUrgencyChanged (id : Nat) (urgent : Bool)
  | workspaceActivated (id : Nat) (focused : Bool)
  | workspaceActiveWindowChanged (workspaceId : Nat) (activeWindowId : Option Nat)
  | windowsChanged (windows : List Window)
  | windowOpenedOrChanged (window : Window)
  | windowClosed (id : Nat)
  | windowFocusChanged (id : Option Nat)
  | windowUrgencyChanged (id : Nat) (urgent : Bool)
  | windowLayoutsChanged (changes : List (Nat × WindowLayout))
  | windowFocusTimestampChanged (id : Nat) (focusTimestamp : Option Timestamp)
  | keyboardLayoutsChanged (names : List String) (currentIdx : Nat)
  | keyboardLayoutSwitched (idx : Nat)
  | overviewOpenedOrClosed (isOpen : Bool)
  | configLoaded (failed : Bool)
  | screenshotCaptured (path : Option String)

/-- One iteration of the `case *WorkspacesChanged` loop (niri_state.go
lines 71-78): store the workspace, then adopt it as the focused
workspace when it is marked focused and differs from the running
cursor, setting the redraw flag. -/
def workspacesChangedStep (acc : State) (wk : Workspace) : State :=
  let acc := { acc with workspaces := mapInsert wk.id wk acc.workspaces }
  if wk.isFocused && wk.id != acc.currentWorkspaceId then
    { acc with currentWorkspaceId := wk.id, needsRedraw := true }
  else acc

/-- `case *WorkspacesChanged` (niri_state.go lines 69-78): rebuild the
workspace map from the event list. -/
def applyWorkspacesChanged (s : State) (wks : List Workspace) : State :=
  wks.foldl workspacesChangedStep { s with workspaces := [] }

/-- `case *WindowOpenedOrChanged` (lines 79-91): insert the window; when
it is focused and differs from the cursor, clear every window focus flag
(the stored copy included, through the aliased pointer), refocus the
stored copy, and move the cursor. -/
def applyWindowOpenedOrChanged (s : State) (w : Window) : State :=
  let s := { s with needsRedraw := true, windows := mapInsert w.id w s.windows }
  if w.isFocused && w.id != s.currentWindowId then
    { s with
      windows := mapModify w.id (fun win => { win with isFocused := true })
        (mapMapValues (fun win => { win with isFocused := false }) s.windows)
      currentWindowId := w.id
      needsRedraw := true }
  else s

/-- `case *WorkspaceActivated` (lines 92-120): error-return when the id
is unknown or the workspace has no output; otherwise deactivate every
workspace sharing the output, activate the target, and on `Focused`
transfer workspace focus and the cursor. -/
def applyWorkspaceActivated (s : State) (id : Nat) (focused : Bool) : State :=
  let s := { s with needsRedraw := true }
  match mapLookup id s.workspaces with
  | none => s
  | some wk =>
    match wk.output with
    | none => s
    | some out =>
      let s := { s with
        workspaces := mapMapValues
          (fun w => if w.output = some out then { w with isActive := false } else w)
          s.workspaces }
      let s := { s with
        workspaces := mapModify id (fun w => { w with isActive := true }) s.workspaces }
      if focused then
        { s with
          workspaces := mapModify id (fun w => { w with isFocused := true })
            (mapMapValues (fun w => { w with isFocused := false }) s.workspaces)
          currentWorkspaceId := id }
      else s

/-- `case *WindowFocusChanged` (lines 121-142): with an id, unfocus all
windows, then focus the target and move the cursor only when the target
is present (otherwise only a warning is logged); with no id, the cursor
becomes the sentinel and all windows are unfocused. -/
def applyWindowFocusChanged (s : State) (oid : Option Nat) : State :=
  let s := { s with needsRedraw := true }
  match oid with
  | some id =>
    let s := { s with
      windows := mapMapValues (fun w => { w with isFocused := false }) s.windows }
    match mapLookup id s.windows with
    | some _ =>
      { s with
        currentWindowId := id
        windows := mapModify id (fun w => { w with isFocused := true }) s.windows }
    | none => s
  | none =>
    { s with
      currentWindowId := noneId
      windows := mapMapValues (fun w => { w with isFocused := false }) s.windows }

/-- `case *WindowFocusTimestampChanged` (lines 143-149): update the
timestamp of a present window; warn-return otherwise.  This branch never
sets the redraw flag. -/
def applyWindowFocusTimestampChanged (s : State) (id : Nat)
    (ts : Option Timestamp) : State :=
  match mapLookup id s.windows with
  | none => s
  | some _ =>
    { s with windows := mapModify id (fun w => { w with focusTimestamp := ts }) s.windows }

/-- `case *WindowClosed` (lines 150-156): delete the window; reset the
cursor when the closed window was the focused one. -/
def applyWindowClosed (s : State) (id : Nat) : State :=
  let s := { s with windows := mapDelete id s.windows }
  let s := if s.currentWindowId = id then { s with currentWindowId := noneId } else s
  { s with needsRedraw := true }

/-- `case *WindowLayoutsChanged` (lines 157-166): overwrite each named
window layout.  `window := s.windows[change.Id]` yields a nil pointer
for an unknown id and `window.Layout = ...` then panics: the panic is
embedded as `none`. -/
def windowLayoutsChangedStep (acc : Option State) (c : Nat × WindowLayout) :
    Option State :=
  match acc with
  | none => none
  | some st =>
    match mapLookup c.1 st.windows with
    | none => none
    | some w0 =>
      let st := { st with
        windows := mapModify c.1 (fun w => { w with layout := c.2 }) st.windows }
      some (if w0.workspaceId = some st.currentWorkspaceId then
          { st with needsRedraw := true }
        else st)

/-- `case *WindowLayoutsChanged`, see `windowLayoutsChangedStep`. -/
def applyWindowLayoutsChanged (s : State) (changes : List (Nat × WindowLayout)) :
    Option State :=
  changes.foldl windowLayoutsChangedStep (some { s with needsRedraw := true })

/-- `case *WindowsChanged` (lines 167-176): insert every listed window
into the existing map (the map is not cleared first); adopt each listed
focused window that differs from the running cursor. -/
def windowsChangedStep (acc : State) (w : Window) : State :=
  let acc := { acc with windows := mapInsert w.id w acc.windows }
  if w.isFocused && w.id != acc.currentWindowId then
    { acc with currentWindowId := w.id }
  else acc

/-- `case *WindowsChanged`, see `windowsChangedStep`. -/
def applyWindowsChanged (s : State) (ws : List Window) : State :=
  ws.foldl windowsChangedStep { s with needsRedraw := true }

/-- `case *WindowUrgencyChanged` (lines 177-182): set the urgency flag
and the redraw flag only when the window is present. -/
def applyWindowUrgencyChanged (s : State) (id : Nat) (urgent : Bool) : State :=
  match mapLookup id s.windows with
  | none => s
  | some _ =>
    { s with
      windows := mapModify id (fun w => { w with isUrgent := urgent }) s.windows
      needsRedraw := true }

/-- `case *WorkspaceUrgencyChanged` (lines 183-188). -/
def applyWorkspaceUrgencyChanged (s : State) (id : Nat) (urgent : Bool) : State :=
  match mapLookup id s.workspaces with
  | none => s
  | some _ =>
    { s with
      workspaces := mapModify id (fun w => { w with isUrgent := urgent }) s.workspaces
      needsRedraw := true }

/-- niri_state.go `State.Update`: reset the redraw flag, then dispatch on
the event type; events without a `case` fall to the logging `default`
branch and change nothing.  `none` embeds a panic. -/
def update (s : State) (e : Event) : Option State :=
  let s := { s with needsRedraw := false }
  match e with
  | .workspacesChanged wks => some (applyWorkspacesChanged s wks)
  | .windowOpenedOrChanged w => some (applyWindowOpenedOrChanged s w)
  | .workspaceActivated id focused => some (applyWorkspaceActivated s id focused)
  | .windowFocusChanged oid => some (applyWindowFocusChanged s oid)
  | .windowFocusTimestampChanged id ts =>
      some (applyWindowFocusTimestampChanged s id ts)
  | .windowClosed id => some (applyWindowClosed s id)
  | .windowLayoutsChanged changes => applyWindowLayoutsChanged s changes
  | .windowsChanged ws => some (applyWindowsChanged s ws)
  | .windowUrgencyChanged id urgent => some (applyWindowUrgencyChanged s id urgent)
  | .workspaceUrgencyChanged id urgent => some (applyWorkspaceUrgencyChanged s id urgent)
  | .workspaceActiveWindowChanged _ _ => some s
  | .keyboardLayoutsChanged _ _ => some s
  | .keyboardLayoutSwitched _ => some s
  | .overviewOpenedOrClosed _ => some s
  | .configLoaded _ => some s
  | .screenshotCaptured _ => some s

/-- Apply a sequence of events in arrival order; `none` once any event
panics. -/
def updateSeq (s : State) (evs : List Event) : Option State :=
  evs.foldl (fun acc e => acc.bind (fun st => update st e)) (some s)

/-- Click/render symbol set (niri_state.go `Symbols`). -/
structure Symbols where
  unfocused : String
  focused : String
  unfocusedFloating : String
  focusedFloating : String
  empty : String
deriving DecidableEq

/-- niri_state.go line 197. -/
def urgentBegin : String := "<span color=\"#fb2c36\">"

/-- niri_state.go line 198. -/
def urgentEnd : String := "</span>"

/-- Monitor resolution shared preamble of `State.Text` (lines 212-225):
an empty monitor argument defaults to the output of the current focused
workspace; `none` stands for either "couldn\x27t determine monitor"
return. -/
def resolveMonitor (s : State) (monitor : String) : Option String :=
  let monitor :=
    if monitor = "" then
      match mapLookup s.currentWorkspaceId s.workspaces with
      | none => none
      | some wk =>
        match wk.output with
        | some out => some out
        | none => some monitor
    else some monitor
  match monitor with
  | none => none
  | some m => if m = "" then none else some m

/-- Accumulator of the window scan inside `State.Text` (lines 238-264):
`focusedColumn` and `maxColumn` start at -1, the urgent-column set
starts empty, the focused-floating tracker starts at window id 0. -/
structure TextScan where
  focusedColumn : Int
  maxColumn : Int
  urgentColumns : List Int
  focusedFloating : Nat
  floatingWindows : List Window
deriving DecidableEq

/-- One iteration of the window scan of `State.Text` (lines 243-264). -/
def textScanStep (target : Nat) (acc : TextScan) (w : Window) : TextScan :=
  if w.workspaceId = some target then
    match w.layout.posInScrollingLayout with
    | some location =>
      let col : Int := (location.x : Int)
      { acc with
        focusedColumn := if w.isFocused then col else acc.focusedColumn
        maxColumn := if col > acc.maxColumn then col else acc.maxColumn
        urgentColumns := if w.isUrgent then col :: acc.urgentColumns else acc.urgentColumns }
    | none =>
      if w.isFloating then
        { acc with
          focusedFloating := if w.isFocused then w.id else acc.focusedFloating
          floatingWindows := acc.floatingWindows ++ [w] }
      else acc
  else acc

/-- Sort key of the floating-window sort (lines 267-269): the `int(...)`
truncation of `Layout.TilePosInWorkspaceView.X`.  On a nil
`TilePosInWorkspaceView` the Go comparator dereferences a nil pointer;
the comparator only runs with two or more floating windows and no claim
reaches that combination, so the missing coordinate is embedded as 0. -/
def floatSortKey (w : Window) : Int :=
  match w.layout.tilePosInWorkspaceView with
  | some v => v.x
  | none => 0

/-- Insertion step of the left-to-right floating-window sort. -/
def insertByKey (w : Window) : List Window → List Window
  | [] => [w]
  | x :: xs =>
    if floatSortKey w ≤ floatSortKey x then w :: x :: xs else x :: insertByKey w xs

/-- The floating-window sort (`slices.SortFunc`, lines 267-269),
embedded as an insertion sort on the same key. -/
def sortFloating (ws : List Window) : List Window :=
  ws.foldr insertByKey []

/-- Column rendering loop of `State.Text` (lines 272-284): one symbol
per column from 1 to the maximum observed column, urgent columns wrapped
in the highlight span. -/
def renderColumns (symbols : Symbols) (sc : TextScan) : String :=
  (List.range' 1 sc.maxColumn.toNat).foldl
    (fun out i =>
      let seg := if sc.focusedColumn = (i : Int) then symbols.focused else symbols.unfocused
      let seg := if (i : Int) ∈ sc.urgentColumns then urgentBegin ++ seg ++ urgentEnd else seg
      out ++ seg)
    ""

/-- Floating rendering loop of `State.Text` (lines 285-296). -/
def renderFloating (symbols : Symbols) (sc : TextScan) (sorted : List Window) : String :=
  if sorted.length > 0 then
    (if sc.maxColumn > 0 then " " else "") ++
      sorted.foldl
        (fun out w =>
          out ++ (if w.id = sc.focusedFloating then symbols.focusedFloating
            else symbols.unfocusedFloating))
        ""
  else ""

/-- niri_state.go `State.Text` (lines 208-302). -/
def Text (s : State) (monitor : String) (symbols : Symbols) : String :=
  match resolveMonitor s monitor with
  | none => "couldn\x27t determine monitor"
  | some monitor =>
    let targetWorkspaceId :=
      match s.workspaces.find? (fun kv => kv.2.output == some monitor && kv.2.isActive) with
      | some kv => kv.2.id
      | none => noneId
    if targetWorkspaceId = noneId then "couldn\x27t determine workspace"
    else
      let sc := s.windows.foldl (fun acc kv => textScanStep targetWorkspaceId acc kv.2)
        { focusedColumn := -1
          maxColumn := -1
          urgentColumns := []
          focusedFloating := 0
          floatingWindows := [] }
      let sorted := sortFloating sc.floatingWindows
      let out := renderColumns symbols sc ++ renderFloating symbols sc sorted
      if out = "" then symbols.empty else out

/-- Number of windows in the map whose focused flag is set. -/
def countFocusedWindows (s : State) : Nat :=
  s.windows.countP (fun kv => kv.2.isFocused)

/-- Number of workspaces in the map on the given output whose active
flag is set. -/
def activeOnOutput (s : State) (out : String) : Nat :=
  s.workspaces.countP (fun kv => kv.2.output == some out && kv.2.isActive)

/-- A layout with every optional field absent and zero sizes, for
concrete test states. -/
def blankLayout : WindowLayout :=
  { posInScrollingLayout := none
    tileSize := ⟨0, 0⟩
    windowSize := ⟨0, 0⟩
    tilePosInWorkspaceView := none
    windowOffsetInTile := ⟨0, 0⟩ }

/-- A tiled layout at the given 1-based column, for concrete test
states. -/
def tiledLayout (col : Nat) : WindowLayout :=
  { blankLayout with posInScrollingLayout := some ⟨col, 1⟩ }

/-- A floating layout at the given view position, for concrete test
states. -/
def floatLayout (x : Int) : WindowLayout :=
  { blankLayout with tilePosInWorkspaceView := some ⟨x, 0⟩ }

/-- Window constructor for concrete test states. -/
def mkWindow (id : Nat) (wsId : Option Nat) (focused floating : Bool)
    (layout : WindowLayout) : Window :=
  { id := id
    title := none
    appId := none
    pid := none
    workspaceId := wsId
    isFocused := focused
    isFloating := floating
    isUrgent := false
    layout := layout
    focusTimestamp := none }

/-- Workspace constructor for concrete test states. -/
def mkWorkspace (id : Nat) (output : Option String) (active focused : Bool) :
    Workspace :=
  { id := id
    index := 1
    name := none
    output := output
    isUrgent := false
    isActive := active
    isFocused := focused
    activeWindowId := none }

/-- The window-targeted events: the seven `case` arms of `State.Update`
that read or write only the window map and the window cursor. -/
def isWindowEvent : Event → Bool
  | .windowOpenedOrChanged _ => true
  | .windowFocusChanged _ => true
  | .windowFocusTimestampChanged _ _ => true
  | .windowClosed _ => true
  | .windowLayoutsChanged _ => true
  | .windowsChanged _ => true
  | .windowUrgencyChanged _ _ => true
  | _ => false

/-- A workspace snapshot list is well formed when no two active
workspaces sharing a (present) output carry distinct ids; an honest
compositor snapshot has at most one active workspace per output and
hence satisfies this. -/
def wkListWF (wks : List Workspace) : Prop :=
  ∀ w1 ∈ wks, ∀ w2 ∈ wks, w1.isActive = true → w2.isActive = true →
    ∀ out : String, w1.output = some out → w2.output = some out → w1.id = w2.id

/-- An event is well formed when any workspace snapshot it carries is
(`wkListWF`); every other event is unconditionally well formed. -/
def eventWF : Event → Prop
  | .workspacesChanged wks => wkListWF wks
  | _ => True

/-- Concrete symbol set of the spec rendering scenario. -/
def testSymbols : Symbols :=
  { unfocused := "⋅"
    focused := "⊙"
    unfocusedFloating := "∗"
    focusedFloating := "⊛"
    empty := "" }

/-- Concrete state of the spec rendering scenario: workspace 1 active
and focused on output eDP-1, tiled windows at columns 1 (focused) and 2
(unfocused), one focused floating window. -/
def c8State : State :=
  { currentWorkspaceId := 1
    currentWindowId := 10
    workspaces := [(1, mkWorkspace 1 (some "eDP-1") true true)]
    windows := [(10, mkWindow 10 (some 1) true false (tiledLayout 1)),
                (11, mkWindow 11 (some 1) false false (tiledLayout 2)),
                (12, mkWindow 12 (some 1) true true (floatLayout 3))]
    needsRedraw := false }

/-- Concrete state with a single unfocused floating window whose id is
0, on the active workspace of output eDP-1. -/
def c10State : State :=
  { currentWorkspaceId := 1
    currentWindowId := noneId
    workspaces := [(1, mkWorkspace 1 (some "eDP-1") true true)]
    windows := [(0, mkWindow 0 (some 1) false true (floatLayout 0))]
    needsRedraw := false }

/-- Concrete sequence: open focused window 1, then receive a window
snapshot containing only focused window 2. -/
def mergeEvents : List Event :=
  [Event.windowOpenedOrChanged (mkWindow 1 (some 1) true false (tiledLayout 1)),
   Event.windowsChanged [mkWindow 2 (some 1) true false (tiledLayout 2)]]

/-- The state reached by `mergeEvents` from the empty state. -/
def mergeResult : State :=
  (updateSeq NewNiriState mergeEvents).getD NewNiriState

/-- Concrete sequence: open focused window 5, then receive a focus
change naming the never-seen window 9. -/
def danglingFocusEvents : List Event :=
  [Event.windowOpenedOrChanged (mkWindow 5 (some 1) true false (tiledLayout 1)),
   Event.windowFocusChanged (some 9)]

/-- The state reached by `danglingFocusEvents` from the empty state. -/
def danglingFocusResult : State :=
  (updateSeq NewNiriState danglingFocusEvents).getD NewNiriState

/-- Concrete sequence: open unfocused window 1, then receive a focus
timestamp for it. -/
def timestampEvents : List Event :=
  [Event.windowOpenedOrChanged (mkWindow 1 (some 1) false false (tiledLayout 1)),
   Event.windowFocusTimestampChanged 1 (some ⟨5, 0⟩)]

/-- The state reached by `timestampEvents` from the empty state. -/
def timestampResult : State :=
  (updateSeq NewNiriState timestampEvents).getD NewNiriState

/-- The state holding exactly the unfocused window 1, reached from the
empty state by one window-opened event. -/
def openOneResult : State :=
  (update NewNiriState
    (Event.windowOpenedOrChanged (mkWindow 1 (some 1) false false (tiledLayout 1)))).getD
    NewNiriState

/-- Concrete protocol-violating snapshot: two distinct workspaces on
output X, both marked active. -/
def doubleActiveEvent : Event :=
  Event.workspacesChanged
    [mkWorkspace 1 (some "X") true false, mkWorkspace 2 (some "X") true false]

/-- The state reached by `doubleActiveEvent` from the empty state. -/
def doubleActiveResult : State :=
  (update NewNiriState doubleActiveEvent).getD NewNiriState

/-- Concrete one-event sequence: a well-formed snapshot with a single
active workspace on output X. -/
def singleActiveEvents : List Event :=
  [Event.workspacesChanged [mkWorkspace 1 (some "X") true false]]

/-- The state reached by `singleActiveEvents` from the empty state. -/
def singleActiveResult : State :=
  (updateSeq NewNiriState singleActiveEvents).getD NewNiriState

/-- Concrete sequence: a snapshot with workspaces 1 and 2, then a
snapshot with workspace 1 only. -/
def replaceEvents : List Event :=
  [Event.workspacesChanged
    [mkWorkspace 1 (some "X") true false, mkWorkspace 2 (some "X") false false],
   Event.workspacesChanged [mkWorkspace 1 (some "X") true false]]

/-- The state reached by `replaceEvents` from the empty state. -/
def replaceResult : State :=
  (updateSeq NewNiriState replaceEvents).getD NewNiriState

/-- Concrete input state for the focus-changed characterization: window
7 present and focused, cursor at 7. -/
def wfcIn : State :=
  { currentWorkspaceId := 1
    currentWindowId := 7
    workspaces := [(1, mkWorkspace 1 (some "eDP-1") true true)]
    windows := [(7, mkWindow 7 (some 1) true false (tiledLayout 1)),
                (8, mkWindow 8 (some 1) false false (tiledLayout 2))]
    needsRedraw := false }

/-- The state `wfcIn` reaches on a focus change to window 8. -/
def wfcOut : State :=
  (update wfcIn (Event.windowFocusChanged (some 8))).getD NewNiriState

/-- Membership in the pair `activeOnOutput` counts. -/
def activeKV (out : String) (kv : Nat × Workspace) : Bool :=
  kv.2.output == some out && kv.2.isActive

lemma activeOnOutput_eq_countP (s : State) (out : String) :
    activeOnOutput s out = s.workspaces.countP (activeKV out) := rfl

lemma mapLookup_mapMapValues {α : Type} (f : α → α) (k : Nat) (m : List (Nat × α)) :
    mapLookup k (mapMapValues f m) = (mapLookup k m).map f := by
  induction m with
  | nil => rfl
  | cons kv rest ih =>
    by_cases h : kv.1 = k <;> simp [mapMapValues, mapLookup, h] <;>
      simpa [mapMapValues] using ih

lemma mapLookup_mapModify_self {α : Type} (k : Nat) (f : α → α) (m : List (Nat × α)) :
    mapLookup k (mapModify k f m) = (mapLookup k m).map f := by
  induction m with
  | nil => rfl
  | cons kv rest ih =>
    by_cases h : kv.1 = k <;> simp [mapModify, mapLookup, h] <;> exact ih

lemma mapLookup_mapModify_ne {α : Type} {k k' : Nat} (h : k' ≠ k) (f : α → α)
    (m : List (Nat × α)) :
    mapLookup k' (mapModify k f m) = mapLookup k' m := by
  induction m with
  | nil => rfl
  | cons kv rest ih =>
    by_cases hk : kv.1 = k
    · subst hk
      simp [mapModify, mapLookup, Ne.symm h]
    · by_cases hk' : kv.1 = k'
      · simp [mapModify, mapLookup, hk, hk', h]
      · simp only [mapModify, if_neg hk, mapLookup, if_neg hk']
        exact ih

lemma mapLookup_mapInsert_self {α : Type} (k : Nat) (v : α) (m : List (Nat × α)) :
    mapLookup k (mapInsert k v m) = some v := by
  induction m with
  | nil => simp [mapInsert, mapLookup]
  | cons kv rest ih =>
    by_cases h : kv.1 = k <;> simp [mapInsert, mapLookup, h] <;> exact ih

lemma mapLookup_mapInsert_ne {α : Type} {k k' : Nat} (h : k' ≠ k) (v : α)
    (m : List (Nat × α)) :
    mapLookup k' (mapInsert k v m) = mapLookup k' m := by
  induction m with
  | nil => simp [mapInsert, mapLookup, Ne.symm h]
  | cons kv rest ih =>
    by_cases hk : kv.1 = k
    · subst hk
      simp [mapInsert, mapLookup, Ne.symm h]
    · by_cases hk' : kv.1 = k'
      · simp [mapInsert, mapLookup, hk, hk', h]
      · simp only [mapInsert, if_neg hk, mapLookup, if_neg hk']
        exact ih

lemma mem_mapInsert {α : Type} {kv : Nat × α} {k : Nat} {v : α} {m : List (Nat × α)}
    (h : kv ∈ mapInsert k v m) : kv = (k, v) ∨ kv ∈ m := by
  induction m with
  | nil => simpa [mapInsert] using h
  | cons kv' rest ih =>
    by_cases hk : kv'.1 = k
    · simp only [mapInsert, hk, if_pos rfl] at h
      rcases List.mem_cons.mp h with h | h
      · exact Or.inl h
      · exact Or.inr (List.mem_cons_of_mem _ h)
    · simp only [mapInsert, hk, if_neg hk] at h
      rcases List.mem_cons.mp h with h | h
      · exact Or.inr (List.mem_cons.mpr (Or.inl h))
      · rcases ih h with h | h
        · exact Or.inl h
        · exact Or.inr (List.mem_cons_of_mem _ h)

lemma mem_keys_mapInsert {α : Type} {a k : Nat} {v : α} {m : List (Nat × α)}
    (h : a ∈ (mapInsert k v m).map Prod.fst) : a = k ∨ a ∈ m.map Prod.fst := by
  rcases List.mem_map.mp h with ⟨kv, hkv, hfst⟩
  rcases mem_mapInsert hkv with h1 | h1
  · left
    rw [← hfst, h1]
  · right
    exact List.mem_map.mpr ⟨kv, h1, hfst⟩

lemma mapInsert_keys_nodup {α : Type} (k : Nat) (v : α) (m : List (Nat × α))
    (h : (m.map Prod.fst).Nodup) : ((mapInsert k v m).map Prod.fst).Nodup := by
  induction m with
  | nil => simp [mapInsert]
  | cons kv rest ih =>
    simp only [List.map_cons, List.nodup_cons] at h
    by_cases hk : kv.1 = k
    · subst hk
      simpa [mapInsert, List.nodup_cons] using h
    · simp only [mapInsert, if_neg hk, List.map_cons, List.nodup_cons]
      refine ⟨fun hmem => ?_, ih h.2⟩
      rcases mem_keys_mapInsert hmem with h1 | h1
      · exact hk h1
      · exact h.1 h1

lemma workspacesChangedStep_workspaces (acc : State) (wk : Workspace) :
    (workspacesChangedStep acc wk).workspaces = mapInsert wk.id wk acc.workspaces := by
  by_cases h : (wk.isFocused && wk.id != acc.currentWorkspaceId) = true <;>
    simp [workspacesChangedStep, h]

lemma workspacesChangedStep_windows (acc : State) (wk : Workspace) :
    (workspacesChangedStep acc wk).windows = acc.windows ∧
      (workspacesChangedStep acc wk).currentWindowId = acc.currentWindowId := by
  by_cases h : (wk.isFocused && wk.id != acc.currentWorkspaceId) = true <;>
    simp [workspacesChangedStep, h]

lemma workspacesChangedStep_flag_pos {acc : State} {wk : Workspace}
    (h : (wk.isFocused && wk.id != acc.currentWorkspaceId) = true) :
    (workspacesChangedStep acc wk).needsRedraw = true := by
  simp [workspacesChangedStep, h]

lemma workspacesChangedStep_flag_neg {acc : State} {wk : Workspace}
    (h : ¬(wk.isFocused && wk.id != acc.currentWorkspaceId) = true) :
    (workspacesChangedStep acc wk).needsRedraw = acc.needsRedraw ∧
      (workspacesChangedStep acc wk).currentWorkspaceId = acc.currentWorkspaceId := by
  simp [workspacesChangedStep, h]

lemma wkFold_workspaces (wks : List Workspace) (s : State) :
    (wks.foldl workspacesChangedStep s).workspaces =
      wks.foldl (fun m wk => mapInsert wk.id wk m) s.workspaces := by
  induction wks generalizing s with
  | nil => rfl
  | cons wk rest ih =>
    simp only [List.foldl_cons]
    rw [ih, workspacesChangedStep_workspaces]

lemma wkFold_flag (wks : List Workspace) (acc : State) :
    (wks.foldl workspacesChangedStep acc).needsRedraw =
      (acc.needsRedraw ||
        wks.any (fun wk => wk.isFocused && wk.id != acc.currentWorkspaceId)) := by
  induction wks generalizing acc with
  | nil => simp
  | cons wk rest ih =>
    simp only [List.foldl_cons, List.any_cons]
    by_cases h : (wk.isFocused && wk.id != acc.currentWorkspaceId) = true
    · rw [ih, workspacesChangedStep_flag_pos h, h]
      simp
    · obtain ⟨h1, h2⟩ := workspacesChangedStep_flag_neg h
      rw [ih, h1, h2]
      simp only [Bool.not_eq_true] at h
      rw [h]
      simp

lemma windowsChangedStep_preserves (acc : State) (w : Window) :
    (windowsChangedStep acc w).workspaces = acc.workspaces ∧
      (windowsChangedStep acc w).currentWorkspaceId = acc.currentWorkspaceId ∧
      (windowsChangedStep acc w).needsRedraw = acc.needsRedraw := by
  by_cases h : (w.isFocused && w.id != acc.currentWindowId) = true <;>
    simp [windowsChangedStep, h]

lemma winFold_preserves (ws : List Window) (acc : State) :
    (ws.foldl windowsChangedStep acc).workspaces = acc.workspaces ∧
      (ws.foldl windowsChangedStep acc).currentWorkspaceId = acc.currentWorkspaceId ∧
      (ws.foldl windowsChangedStep acc).needsRedraw = acc.needsRedraw := by
  induction ws generalizing acc with
  | nil => exact ⟨rfl, rfl, rfl⟩
  | cons w rest ih =>
    simp only [List.foldl_cons]
    obtain ⟨h1, h2, h3⟩ := ih (windowsChangedStep acc w)
    obtain ⟨g1, g2, g3⟩ := windowsChangedStep_preserves acc w
    exact ⟨h1.trans g1, h2.trans g2, h3.trans g3⟩

lemma layoutsFold_none (changes : List (Nat × WindowLayout)) :
    changes.foldl windowLayoutsChangedStep none = none := by
  induction changes with
  | nil => rfl
  | cons c rest ih => simpa [windowLayoutsChangedStep] using ih

lemma layoutsFold_preserves (changes : List (Nat × WindowLayout)) :
    ∀ st st' : State, changes.foldl windowLayoutsChangedStep (some st) = some st' →
      st'.workspaces = st.workspaces ∧
        st'.currentWorkspaceId = st.currentWorkspaceId ∧
        (st.needsRedraw = true → st'.needsRedraw = true) := by
  induction changes with
  | nil =>
    intro st st' h
    obtain rfl : st = st' := by simpa using h
    exact ⟨rfl, rfl, fun h => h⟩
  | cons c rest ih =>
    intro st st' h
    simp only [List.foldl_cons] at h
    rcases hl : mapLookup c.1 st.windows with _ | w0
    · rw [show windowLayoutsChangedStep (some st) c = none by
        simp [windowLayoutsChangedStep, hl], layoutsFold_none] at h
      exact absurd h (by simp)
    · have hstep : windowLayoutsChangedStep (some st) c =
          some (if w0.workspaceId = some st.currentWorkspaceId then
              { st with
                windows := mapModify c.1 (fun w => { w with layout := c.2 }) st.windows
                needsRedraw := true }
            else { st with
                windows := mapModify c.1 (fun w => { w with layout := c.2 }) st.windows }) := by
        by_cases hw : w0.workspaceId = some st.currentWorkspaceId <;>
          simp [windowLayoutsChangedStep, hl, hw]
      rw [hstep] at h
      by_cases hw : w0.workspaceId = some st.currentWorkspaceId
      · rw [if_pos hw] at h
        obtain ⟨h1, h2, _⟩ := ih _ _ h
        refine ⟨h1, h2, fun _ => ?_⟩
        obtain ⟨_, _, h3⟩ := ih _ _ h
        exact h3 rfl
      · rw [if_neg hw] at h
        obtain ⟨h1, h2, h3⟩ := ih _ _ h
        exact ⟨h1, h2, h3⟩

lemma applyWindowOpenedOrChanged_preserves (s : State) (w : Window) :
    (applyWindowOpenedOrChanged s w).workspaces = s.workspaces ∧
      (applyWindowOpenedOrChanged s w).currentWorkspaceId = s.currentWorkspaceId := by
  by_cases h : (w.isFocused && w.id != s.currentWindowId) = true <;>
    simp [applyWindowOpenedOrChanged, h]

lemma applyWindowFocusChanged_preserves (s : State) (oid : Option Nat) :
    (applyWindowFocusChanged s oid).workspaces = s.workspaces ∧
      (applyWindowFocusChanged s oid).currentWorkspaceId = s.currentWorkspaceId := by
  rcases oid with _ | id
  · simp [applyWindowFocusChanged]
  · rcases hl : mapLookup id
        (mapMapValues (fun w => { w with isFocused := false }) s.windows) with _ | w <;>
      simp [applyWindowFocusChanged, hl]

lemma applyWindowFocusTimestampChanged_preserves (s : State) (id : Nat)
    (ts : Option Timestamp) :
    (applyWindowFocusTimestampChanged s id ts).workspaces = s.workspaces ∧
      (applyWindowFocusTimestampChanged s id ts).currentWorkspaceId =
        s.currentWorkspaceId ∧
      (applyWindowFocusTimestampChanged s id ts).needsRedraw = s.needsRedraw := by
  rcases hl : mapLookup id s.windows with _ | w <;>
    simp [applyWindowFocusTimestampChanged, hl]

lemma applyWindowClosed_preserves (s : State) (id : Nat) :
    (applyWindowClosed s id).workspaces = s.workspaces ∧
      (applyWindowClosed s id).currentWorkspaceId = s.currentWorkspaceId := by
  by_cases h : s.currentWindowId = id <;> simp [applyWindowClosed, h]

lemma applyWindowUrgencyChanged_preserves (s : State) (id : Nat) (u : Bool) :
    (applyWindowUrgencyChanged s id u).workspaces = s.workspaces ∧
      (applyWindowUrgencyChanged s id u).currentWorkspaceId = s.currentWorkspaceId := by
  rcases hl : mapLookup id s.windows with _ | w <;>
    simp [applyWindowUrgencyChanged, hl]

/-- Every window-targeted branch of `State.Update` leaves the workspace
map and the focused-workspace cursor unchanged; shared by several claim
proofs. -/
lemma window_event_preserves_workspaces {s s' : State} {e : Event}
    (hw : isWindowEvent e = true) (h : update s e = some s') :
    s'.workspaces = s.workspaces ∧ s'.currentWorkspaceId = s.currentWorkspaceId := by
  cases e with
  | windowOpenedOrChanged w =>
    obtain rfl : applyWindowOpenedOrChanged { s with needsRedraw := false } w = s' := by
      simpa [update] using h
    exact applyWindowOpenedOrChanged_preserves { s with needsRedraw := false } w
  | windowFocusChanged oid =>
    obtain rfl : applyWindowFocusChanged { s with needsRedraw := false } oid = s' := by
      simpa [update] using h
    exact applyWindowFocusChanged_preserves { s with needsRedraw := false } oid
  | windowFocusTimestampChanged id ts =>
    obtain rfl :
        applyWindowFocusTimestampChanged { s with needsRedraw := false } id ts = s' := by
      simpa [update] using h
    obtain ⟨h1, h2, _⟩ :=
      applyWindowFocusTimestampChanged_preserves { s with needsRedraw := false } id ts
    exact ⟨h1, h2⟩
  | windowClosed id =>
    obtain rfl : applyWindowClosed { s with needsRedraw := false } id = s' := by
      simpa [update] using h
    exact applyWindowClosed_preserves { s with needsRedraw := false } id
  | windowLayoutsChanged changes =>
    have h' : changes.foldl windowLayoutsChangedStep
        (some { { s with needsRedraw := false } with needsRedraw := true }) = some s' := by
      simpa [update, applyWindowLayoutsChanged] using h
    obtain ⟨h1, h2, _⟩ := layoutsFold_preserves changes _ _ h'
    exact ⟨h1, h2⟩
  | windowsChanged ws =>
    obtain rfl : applyWindowsChanged { s with needsRedraw := false } ws = s' := by
      simpa [update] using h
    unfold applyWindowsChanged
    obtain ⟨h1, h2, _⟩ := winFold_preserves ws _
    exact ⟨h1, h2⟩
  | windowUrgencyChanged id u =>
    obtain rfl : applyWindowUrgencyChanged { s with needsRedraw := false } id u = s' := by
      simpa [update] using h
    exact applyWindowUrgencyChanged_preserves { s with needsRedraw := false } id u
  | workspacesChanged wks => simp [isWindowEvent] at hw
  | workspaceUrgencyChanged id u => simp [isWindowEvent] at hw
  | workspaceActivated id f => simp [isWindowEvent] at hw
  | workspaceActiveWindowChanged a b => simp [isWindowEvent] at hw
  | keyboardLayoutsChanged a b => simp [isWindowEvent] at hw
  | keyboardLayoutSwitched a => simp [isWindowEvent] at hw
  | overviewOpenedOrClosed a => simp [isWindowEvent] at hw
  | configLoaded a => simp [isWindowEvent] at hw
  | screenshotCaptured a => simp [isWindowEvent] at hw

lemma countP_mapMapValues_eq {α : Type} (p : Nat × α → Bool) (f : α → α)
    (m : List (Nat × α)) (h : ∀ kv ∈ m, p (kv.1, f kv.2) = p kv) :
    (mapMapValues f m).countP p = m.countP p := by
  unfold mapMapValues
  rw [List.countP_map]
  refine List.countP_congr fun kv hkv => ?_
  simp only [Function.comp_apply]
  rw [h kv hkv]

lemma countP_mapModify_eq {α : Type} (p : Nat × α → Bool) (k : Nat) (f : α → α)
    (m : List (Nat × α)) (h : ∀ v, mapLookup k m = some v → p (k, f v) = p (k, v)) :
    (mapModify k f m).countP p = m.countP p := by
  induction m with
  | nil => rfl
  | cons kv rest ih =>
    by_cases hk : kv.1 = k
    · have hp := h kv.2 (by simp [mapLookup, hk])
      subst hk
      simp [mapModify, List.countP_cons, hp]
    · simp only [mapModify, if_neg hk, List.countP_cons]
      rw [ih fun v hv => h v (by simpa [mapLookup, hk] using hv)]

lemma countP_mapModify_le {α : Type} (p : Nat × α → Bool) (k : Nat) (f : α → α)
    (m : List (Nat × α)) :
    (mapModify k f m).countP p ≤ m.countP p + 1 := by
  induction m with
  | nil => simp [mapModify]
  | cons kv rest ih =>
    by_cases hk : kv.1 = k
    · simp only [mapModify, if_pos hk, List.countP_cons]
      have h1 : (if p (kv.1, f kv.2) then 1 else 0) ≤ 1 := by split <;> omega
      omega
    · simp only [mapModify, if_neg hk, List.countP_cons]
      omega

lemma countP_mapInsert {α : Type} (p : Nat × α → Bool) (k : Nat) (v : α)
    (m : List (Nat × α)) (hnd : (m.map Prod.fst).Nodup) :
    (mapInsert k v m).countP p =
      (m.filter (fun kv => kv.1 ≠ k)).countP p + (if p (k, v) then 1 else 0) := by
  induction m with
  | nil => simp [mapInsert, List.countP_cons]
  | cons kv rest ih =>
    simp only [List.map_cons, List.nodup_cons] at hnd
    by_cases hk : kv.1 = k
    · subst hk
      have h1 : mapInsert kv.1 v (kv :: rest) = (kv.1, v) :: rest := by
        simp [mapInsert]
      have h2 : (kv :: rest).filter (fun kv' => kv'.1 ≠ kv.1) =
          rest.filter (fun kv' => kv'.1 ≠ kv.1) := by
        simp [List.filter_cons]
      have h3 : rest.filter (fun kv' => kv'.1 ≠ kv.1) = rest := by
        refine List.filter_eq_self.mpr fun a ha => ?_
        have hne : a.1 ≠ kv.1 := fun hEq => hnd.1 (hEq ▸ List.mem_map.mpr ⟨a, ha, rfl⟩)
        simpa using hne
      rw [h1, h2, h3, List.countP_cons]
    · have h1 : mapInsert k v (kv :: rest) = kv :: mapInsert k v rest := by
        simp [mapInsert, hk]
      have h2 : (kv :: rest).filter (fun kv' => kv'.1 ≠ k) =
          kv :: rest.filter (fun kv' => kv'.1 ≠ k) := by
        simp [List.filter_cons, hk]
      rw [h1, h2, List.countP_cons, List.countP_cons, ih hnd.2]
      omega

lemma activeKV_eq_true {out : String} {kv : Nat × Workspace} :
    activeKV out kv = true ↔ kv.2.output = some out ∧ kv.2.isActive = true := by
  simp [activeKV]

lemma wkInsertFold_le_one (wks : List Workspace) :
    ∀ m : List (Nat × Workspace),
    (m.map Prod.fst).Nodup →
    (∀ kv ∈ m, kv.1 = kv.2.id) →
    (∀ out : String, m.countP (activeKV out) ≤ 1) →
    (∀ kv ∈ m, ∀ wk ∈ wks, kv.2.isActive = true → wk.isActive = true →
      ∀ out : String, kv.2.output = some out → wk.output = some out → kv.1 = wk.id) →
    wkListWF wks →
    ∀ out : String,
      (wks.foldl (fun m wk => mapInsert wk.id wk m) m).countP (activeKV out) ≤ 1 := by
  induction wks with
  | nil =>
    intro m _ _ hcnt _ _ out
    exact hcnt out
  | cons wk0 rest ih =>
    intro m hnd hkey hcnt hcross hwf out
    simp only [List.foldl_cons]
    refine ih (mapInsert wk0.id wk0 m) (mapInsert_keys_nodup _ _ _ hnd) ?_ ?_ ?_ ?_ out
    · intro kv hkv
      rcases mem_mapInsert hkv with h | h
      · rw [h]
      · exact hkey kv h
    · intro out'
      rw [countP_mapInsert _ _ _ _ hnd]
      by_cases hp : activeKV out' (wk0.id, wk0) = true
      · have hzero : (m.filter (fun kv => kv.1 ≠ wk0.id)).countP (activeKV out') = 0 := by
          rw [List.countP_eq_zero]
          intro kv hkv hkvp
          have hmem := List.mem_of_mem_filter hkv
          have hkne : kv.1 ≠ wk0.id := by simpa using List.of_mem_filter hkv
          obtain ⟨ho, ha⟩ := activeKV_eq_true.mp hkvp
          obtain ⟨ho0, ha0⟩ := activeKV_eq_true.mp hp
          exact hkne (hcross kv hmem wk0 (List.mem_cons_self _ _) ha ha0 out' ho ho0)
        rw [hzero, if_pos hp]
      · rw [if_neg hp, Nat.add_zero]
        exact le_trans ((List.filter_sublist m).countP_le _) (hcnt out')
    · intro kv hkv wk hwk hact1 hact2 out' ho1 ho2
      rcases mem_mapInsert hkv with h | h
      · rw [h]
        exact hwf wk0 (List.mem_cons_self _ _) wk (List.mem_cons_of_mem _ hwk)
          (by rw [← show kv.2 = wk0 from congrArg Prod.snd h]; exact hact1) hact2 out'
          (by rw [← show kv.2 = wk0 from congrArg Prod.snd h]; exact ho1) ho2
      · exact hcross kv h wk (List.mem_cons_of_mem _ hwk) hact1 hact2 out' ho1 ho2
    · intro w1 h1 w2 h2
      exact hwf w1 (List.mem_cons_of_mem _ h1) w2 (List.mem_cons_of_mem _ h2)

lemma applyWorkspaceActivated_active_le_one (s : State) (id : Nat) (focused : Bool)
    (hinv : ∀ out : String, s.workspaces.countP (activeKV out) ≤ 1) :
    ∀ out : String,
      (applyWorkspaceActivated s id focused).workspaces.countP (activeKV out) ≤ 1 := by
  intro out
  rcases hl : mapLookup id s.workspaces with _ | wk
  · simpa [applyWorkspaceActivated, hl] using hinv out
  · rcases ho : wk.output with _ | out0
    · simpa [applyWorkspaceActivated, hl, ho] using hinv out
    · have hW2 : (mapModify id (fun w => { w with isActive := true })
          (mapMapValues
            (fun w => if w.output = some out0 then { w with isActive := false } else w)
            s.workspaces)).countP (activeKV out) ≤ 1 := by
        by_cases hout : out = out0
        · subst hout
          have hpt : ∀ (k : Nat) (w : Workspace), activeKV out
              (k, if w.output = some out then { w with isActive := false } else w) =
                false := by
            intro k w
            by_cases hwo : w.output = some out
            · simp [activeKV, hwo]
            · simp [activeKV, hwo]
          have hzero : (mapMapValues
              (fun w => if w.output = some out then { w with isActive := false } else w)
              s.workspaces).countP (activeKV out) = 0 := by
            rw [List.countP_eq_zero]
            intro kv hkv
            unfold mapMapValues at hkv
            obtain ⟨kv0, hkv0, rfl⟩ := List.mem_map.mp hkv
            simp [hpt kv0.1 kv0.2]
          calc (mapModify id (fun w => { w with isActive := true })
                (mapMapValues
                  (fun w => if w.output = some out then { w with isActive := false } else w)
                  s.workspaces)).countP (activeKV out)
              ≤ (mapMapValues
                  (fun w => if w.output = some out then { w with isActive := false } else w)
                  s.workspaces).countP (activeKV out) + 1 := countP_mapModify_le _ _ _ _
            _ = 1 := by rw [hzero]
        · have h1 : (mapMapValues
              (fun w => if w.output = some out0 then { w with isActive := false } else w)
              s.workspaces).countP (activeKV out) = s.workspaces.countP (activeKV out) := by
            refine countP_mapMapValues_eq _ _ _ fun kv _ => ?_
            by_cases hwo : kv.2.output = some out0
            · simp [activeKV, hwo, Ne.symm hout]
            · simp [activeKV, hwo]
          have h2 : (mapModify id (fun w => { w with isActive := true })
              (mapMapValues
                (fun w => if w.output = some out0 then { w with isActive := false } else w)
                s.workspaces)).countP (activeKV out) =
              (mapMapValues
                (fun w => if w.output = some out0 then { w with isActive := false } else w)
                s.workspaces).countP (activeKV out) := by
            refine countP_mapModify_eq _ _ _ _ fun v hv => ?_
            rw [mapLookup_mapMapValues, hl] at hv
            have hv' : v = (if wk.output = some out0 then { wk with isActive := false }
                else wk) := by simpa using hv.symm
            subst hv'
            simp [activeKV, ho, Ne.symm hout]
          rw [h2, h1]
          exact hinv out
      cases focused with
      | false => simpa [applyWorkspaceActivated, hl, ho] using hW2
      | true =>
        have hmod : (mapModify id (fun w => { w with isFocused := true })
            (mapMapValues (fun w => { w with isFocused := false })
              (mapModify id (fun w => { w with isActive := true })
                (mapMapValues
                  (fun w => if w.output = some out0 then { w with isActive := false } else w)
                  s.workspaces)))).countP (activeKV out) =
            (mapModify id (fun w => { w with isActive := true })
              (mapMapValues
                (fun w => if w.output = some out0 then { w with isActive := false } else w)
                s.workspaces)).countP (activeKV out) := by
          rw [countP_mapModify_eq (activeKV out) id
              (fun w => { w with isFocused := true }) _ (fun v _ => rfl),
            countP_mapMapValues_eq (activeKV out)
              (fun w => { w with isFocused := false }) _ (fun kv _ => rfl)]
        simpa [applyWorkspaceActivated, hl, ho, hmod] using hW2

/-- One `Apply` of a well-formed event keeps at most one active
workspace per output. -/
lemma update_active_le_one {s s' : State} {e : Event}
    (hwf : eventWF e) (hinv : ∀ out : String, activeOnOutput s out ≤ 1)
    (h : update s e = some s') : ∀ out : String, activeOnOutput s' out ≤ 1 := by
  by_cases hwe : isWindowEvent e = true
  · obtain ⟨h1, _⟩ := window_event_preserves_workspaces hwe h
    intro out
    rw [activeOnOutput_eq_countP, h1]
    exact hinv out
  · cases e with
    | workspacesChanged wks =>
      obtain rfl : applyWorkspacesChanged { s with needsRedraw := false } wks = s' := by
        simpa [update] using h
      intro out
      rw [activeOnOutput_eq_countP]
      unfold applyWorkspacesChanged
      rw [wkFold_workspaces]
      refine wkInsertFold_le_one wks [] (by simp) ?_ ?_ ?_ ?_ out
      · intro kv hkv
        exact absurd hkv (List.not_mem_nil _)
      · intro out'
        simp
      · intro kv hkv
        exact absurd hkv (List.not_mem_nil _)
      · simpa [eventWF] using hwf
    | workspaceActivated id focused =>
      obtain rfl : applyWorkspaceActivated { s with needsRedraw := false } id focused = s' := by
        simpa [update] using h
      intro out
      rw [activeOnOutput_eq_countP]
      exact applyWorkspaceActivated_active_le_one { s with needsRedraw := false } id focused
        (fun out' => hinv out') out
    | workspaceUrgencyChanged id urgent =>
      obtain rfl : applyWorkspaceUrgencyChanged { s with needsRedraw := false } id urgent
          = s' := by simpa [update] using h
      intro out
      rw [activeOnOutput_eq_countP]
      rcases hl : mapLookup id s.workspaces with _ | wk
      · simpa [applyWorkspaceUrgencyChanged, hl] using hinv out
      · have hmod : (mapModify id (fun w => { w with isUrgent := urgent })
            s.workspaces).countP (activeKV out) = s.workspaces.countP (activeKV out) :=
          countP_mapModify_eq (activeKV out) id
            (fun w => { w with isUrgent := urgent }) _ (fun v _ => rfl)
        simpa [applyWorkspaceUrgencyChanged, hl, hmod] using hinv out
    | workspaceActiveWindowChanged a b =>
      obtain rfl : { s with needsRedraw := false } = s' := by simpa [update] using h
      exact fun out => hinv out
    | keyboardLayoutsChanged a b =>
      obtain rfl : { s with needsRedraw := false } = s' := by simpa [update] using h
      exact fun out => hinv out
    | keyboardLayoutSwitched a =>
      obtain rfl : { s with needsRedraw := false } = s' := by simpa [update] using h
      exact fun out => hinv out
    | overviewOpenedOrClosed a =>
      obtain rfl : { s with needsRedraw := false } = s' := by simpa [update] using h
      exact fun out => hinv out
    | configLoaded a =>
      obtain rfl : { s with needsRedraw := false } = s' := by simpa [update] using h
      exact fun out => hinv out
    | screenshotCaptured a =>
      obtain rfl : { s with needsRedraw := false } = s' := by simpa [update] using h
      exact fun out => hinv out
    | windowsChanged ws => exact absurd rfl hwe
    | windowOpenedOrChanged w => exact absurd rfl hwe
    | windowClosed id => exact absurd rfl hwe
    | windowFocusChanged oid => exact absurd rfl hwe
    | windowUrgencyChanged id u => exact absurd rfl hwe
    | windowLayoutsChanged cs => exact absurd rfl hwe
    | windowFocusTimestampChanged id ts => exact absurd rfl hwe

lemma updateSeq_bind_none (evs : List Event) :
    evs.foldl (fun acc e => acc.bind fun st => update st e) none = none := by
  induction evs with
  | nil => rfl
  | cons e rest ih => simpa using ih

lemma updateSeq_cons (s : State) (e : Event) (evs : List Event) :
    updateSeq s (e :: evs) =
      (update s e).bind fun s₁ => updateSeq s₁ evs := by
  rcases hu : update s e with _ | s₁
  · simp only [updateSeq, List.foldl_cons, Option.bind, hu]
    exact updateSeq_bind_none evs
  · simp only [updateSeq, List.foldl_cons, Option.bind, hu]

lemma updateSeq_active_le_one (evs : List Event) :
    ∀ s s' : State, (∀ e ∈ evs, eventWF e) →
      (∀ out : String, activeOnOutput s out ≤ 1) → updateSeq s evs = some s' →
      ∀ out : String, activeOnOutput s' out ≤ 1 := by
  induction evs with
  | nil =>
    intro s s' _ hinv h
    obtain rfl : s = s' := by simpa [updateSeq] using h
    exact hinv
  | cons e rest ih =>
    intro s s' hwf hinv h
    rw [updateSeq_cons] at h
    rcases hu : update s e with _ | s₁
    · rw [hu] at h
      exact absurd h (by simp)
    · rw [hu] at h
      exact ih s₁ s' (fun e' he' => hwf e' (List.mem_cons_of_mem _ he'))
        (update_active_le_one (hwf e (List.mem_cons_self _ _)) hinv hu) h

lemma applyWindowOpenedOrChanged_flag (s : State) (w : Window) :
    (applyWindowOpenedOrChanged s w).needsRedraw = true := by
  by_cases h : (w.isFocused && w.id != s.currentWindowId) = true <;>
    simp [applyWindowOpenedOrChanged, h]

lemma applyWindowFocusChanged_flag (s : State) (oid : Option Nat) :
    (applyWindowFocusChanged s oid).needsRedraw = true := by
  rcases oid with _ | id
  · simp [applyWindowFocusChanged]
  · rcases hl : mapLookup id
        (mapMapValues (fun w => { w with isFocused := false }) s.windows) with _ | w <;>
      simp [applyWindowFocusChanged, hl]

lemma applyWindowClosed_flag (s : State) (id : Nat) :
    (applyWindowClosed s id).needsRedraw = true := by
  by_cases h : s.currentWindowId = id <;> simp [applyWindowClosed, h]

lemma applyWorkspaceActivated_flag (s : State) (id : Nat) (focused : Bool) :
    (applyWorkspaceActivated s id focused).needsRedraw = true := by
  rcases hl : mapLookup id s.workspaces with _ | wk
  · simp [applyWorkspaceActivated, hl]
  · rcases ho : wk.output with _ | out0
    · simp [applyWorkspaceActivated, hl, ho]
    · cases focused <;> simp [applyWorkspaceActivated, hl, ho]

lemma applyWindowUrgencyChanged_flag (s : State) (id : Nat) (u : Bool) :
    (applyWindowUrgencyChanged s id u).needsRedraw =
      (s.needsRedraw || mapContains id s.windows) := by
  rcases hl : mapLookup id s.windows with _ | w <;>
    simp [applyWindowUrgencyChanged, mapContains, hl]

lemma applyWorkspaceUrgencyChanged_flag (s : State) (id : Nat) (u : Bool) :
    (applyWorkspaceUrgencyChanged s id u).needsRedraw =
      (s.needsRedraw || mapContains id s.workspaces) := by
  rcases hl : mapLookup id s.workspaces with _ | wk <;>
    simp [applyWorkspaceUrgencyChanged, mapContains, hl]

/-- C1: the claim says every decoded event is applied without crashing,
and that a `WindowLayoutsChanged` batch naming an unknown window id is
logged and skipped.  The code instead reads the nil map entry and
dereferences it: applied to the empty state, a layout batch naming
window 1 panics (embedded as `none`). -/
theorem C1_layoutsChanged_unknown_id_panics :
    update NewNiriState (Event.windowLayoutsChanged [(1, blankLayout)]) = none := rfl

/-- C2: evaluating the reducer on the failing input of the at-most-one-
focused-window claim: after opening focused window 1 and then receiving
a `WindowsChanged` snapshot containing only focused window 2, the map
holds two windows with the focused flag set, because the snapshot is
merged instead of replacing the map. -/
theorem C2_two_focused_windows_after_merge :
    (updateSeq NewNiriState mergeEvents).map countFocusedWindows = some 2 := rfl

/-- C3: the claim says a `WindowsChanged` snapshot replaces the window
map with exactly the listed windows.  Evaluating the reducer: after
`mergeEvents`, window id 1 — absent from the snapshot list, which holds
only window 2 — is still a key of the window map. -/
theorem C3_windowsChanged_keeps_absent_id :
    (updateSeq NewNiriState mergeEvents).map (fun s => mapContains 1 s.windows) =
      some true := rfl

/-- C8: the spec rendering scenario: workspace 1 active and focused on
output eDP-1, tiled windows at columns 1 (focused) and 2 (unfocused),
one focused floating window; `Text` returns the focused symbol, the
unfocused symbol, a separating space, and the focused-floating
symbol. -/
theorem C8_text_scenario : Text c8State "eDP-1" testSymbols = "⊙⋅ ⊛" := rfl

/-- C10: with no focused floating window on the resolved workspace, the
focused-floating tracker keeps its initial value 0, so the floating
window whose id is 0 is rendered with the focused-floating symbol
instead of the unfocused-floating one. -/
theorem C10_floating_id_zero_rendered_focused :
    Text c10State "eDP-1" testSymbols = "⊛" := rfl

/-- C4 counterexample: the claim says a `WindowFocusChanged` carrying an
id always moves the focused-window cursor to that id.  After opening
focused window 5 and receiving a focus change to the never-seen window
9, the cursor still holds 5, not 9: the code moves the cursor only when
the target window exists in the map. -/
theorem C4_counterexample_cursor_kept :
    (updateSeq NewNiriState danglingFocusEvents).map State.currentWindowId = some 5 ∧
      (5 : Nat) ≠ 9 := ⟨rfl, by decide⟩

/-- C5 counterexample: the claim says every successfully handled event
leaves the redraw flag true, in particular a
`WindowFocusTimestampChanged` naming an existing window.  After opening
window 1 and receiving a focus timestamp for it, the window exists and
the timestamp was applied, yet the flag is false: that branch never
sets it. -/
theorem C5_counterexample_timestamp_leaves_flag_false :
    (updateSeq NewNiriState timestampEvents).map State.needsRedraw = some false ∧
      (updateSeq NewNiriState timestampEvents).map
        (fun s => mapContains 1 s.windows) = some true := ⟨rfl, rfl⟩

/-- C6 counterexample: the claim quantifies over every event sequence.
A protocol-violating `WorkspacesChanged` snapshot listing two distinct
workspaces on output X, both marked active, is stored as-is: afterwards
two workspaces on X are active, refuting the bound 1. -/
theorem C6_counterexample_two_active_on_one_output :
    update NewNiriState doubleActiveEvent = some doubleActiveResult ∧
      activeOnOutput doubleActiveResult "X" = 2 ∧ ¬(2 ≤ 1) := ⟨rfl, rfl, by decide⟩

/-- C4 (amended): applying `WindowFocusChanged` behaves as follows.  No
id: the cursor becomes the none sentinel and every stored window is
unfocused.  An id whose window is present: every stored window is
unfocused except the target, which is focused, and the cursor moves to
that id.  An id whose window is absent: every stored window is
unfocused and the cursor is left unchanged (the code logs a warning and
does not move the cursor). -/
theorem C4_amended_focusChanged_characterization (s s' : State) (oid : Option Nat)
    (h : update s (Event.windowFocusChanged oid) = some s') :
    (oid = none → s'.currentWindowId = noneId ∧
      ∀ k w, mapLookup k s'.windows = some w → w.isFocused = false)
  ∧ (∀ id, oid = some id → mapContains id s.windows = true →
      s'.currentWindowId = id ∧
      ∀ k w, mapLookup k s'.windows = some w → (w.isFocused = true ↔ k = id))
  ∧ (∀ id, oid = some id → mapContains id s.windows = false →
      s'.currentWindowId = s.currentWindowId ∧
      ∀ k w, mapLookup k s'.windows = some w → w.isFocused = false) := by
  obtain rfl : applyWindowFocusChanged { s with needsRedraw := false } oid = s' := by
    simpa [update] using h
  refine ⟨?_, ?_, ?_⟩
  · rintro rfl
    refine ⟨by simp [applyWindowFocusChanged], fun k w hw => ?_⟩
    rw [show (applyWindowFocusChanged { s with needsRedraw := false } none).windows =
        mapMapValues (fun w => { w with isFocused := false }) s.windows from by
        simp [applyWindowFocusChanged]] at hw
    rw [mapLookup_mapMapValues] at hw
    rcases hl : mapLookup k s.windows with _ | w0
    · rw [hl] at hw
      exact absurd hw (by simp)
    · rw [hl] at hw
      have hww : { w0 with isFocused := false } = w := by simpa using hw
      rw [← hww]
  · rintro id rfl hc
    rcases hl : mapLookup id s.windows with _ | w0
    · rw [mapContains, hl] at hc
      exact absurd hc (by simp)
    · have hsome : mapLookup id
          (mapMapValues (fun w => { w with isFocused := false }) s.windows) =
            some { w0 with isFocused := false } := by
        rw [mapLookup_mapMapValues, hl]
        rfl
      have hwnd : (applyWindowFocusChanged { s with needsRedraw := false }
          (some id)).windows =
          mapModify id (fun w => { w with isFocused := true })
            (mapMapValues (fun w => { w with isFocused := false }) s.windows) := by
        simp [applyWindowFocusChanged, hsome]
      have hcur : (applyWindowFocusChanged { s with needsRedraw := false }
          (some id)).currentWindowId = id := by
        simp [applyWindowFocusChanged, hsome]
      refine ⟨hcur, fun k w hw => ?_⟩
      rw [hwnd] at hw
      by_cases hk : k = id
      · subst hk
        rw [mapLookup_mapModify_self, mapLookup_mapMapValues, hl] at hw
        have hww : { w0 with isFocused := true } = w := by simpa using hw
        rw [← hww]
        simp
      · rw [mapLookup_mapModify_ne hk, mapLookup_mapMapValues] at hw
        rcases hl2 : mapLookup k s.windows with _ | w1
        · rw [hl2] at hw
          exact absurd hw (by simp)
        · rw [hl2] at hw
          have hww : { w1 with isFocused := false } = w := by simpa using hw
          rw [← hww]
          simp [hk]
  · rintro id rfl hc
    rcases hl : mapLookup id s.windows with _ | w0
    · have hnone : mapLookup id
          (mapMapValues (fun w => { w with isFocused := false }) s.windows) = none := by
        rw [mapLookup_mapMapValues, hl]
        rfl
      have hwnd : (applyWindowFocusChanged { s with needsRedraw := false }
          (some id)).windows =
          mapMapValues (fun w => { w with isFocused := false }) s.windows := by
        simp [applyWindowFocusChanged, hnone]
      have hcur : (applyWindowFocusChanged { s with needsRedraw := false }
          (some id)).currentWindowId = s.currentWindowId := by
        simp [applyWindowFocusChanged, hnone]
      refine ⟨hcur, fun k w hw => ?_⟩
      rw [hwnd, mapLookup_mapMapValues] at hw
      rcases hl2 : mapLookup k s.windows with _ | w1
      · rw [hl2] at hw
        exact absurd hw (by simp)
      · rw [hl2] at hw
        have hww : { w1 with isFocused := false } = w := by simpa using hw
        rw [← hww]
    · rw [mapContains, hl] at hc
      exact absurd hc (by simp)

/-- C4 witness: the characterization applied to the concrete state
`wfcIn` (windows 7 and 8 present, window 7 focused, cursor 7) and a
focus change to the present window 8. -/
theorem C4_amended_focusChanged_characterization_witness :
    wfcOut.currentWindowId = 8 ∧ ∀ w, mapLookup 7 wfcOut.windows = some w →
      (w.isFocused = true ↔ (7 : Nat) = 8) := by
  have h := C4_amended_focusChanged_characterization wfcIn wfcOut (some 8) rfl
  obtain ⟨hcur, hall⟩ := h.2.1 8 rfl (by decide)
  exact ⟨hcur, fun w hw => hall 7 w hw⟩

/-- C5 (amended): the redraw flag is reset at the start of every
`Apply` (so the result never depends on the incoming flag), and the
per-branch outcome is: `WorkspacesChanged` leaves the flag true exactly
when the list holds a workspace marked focused whose id differs from
the current cursor; `WindowFocusTimestampChanged` always leaves it
false, existing window or not; `WindowOpenedOrChanged`,
`WindowFocusChanged`, `WindowClosed`, `WindowsChanged`,
`WorkspaceActivated`, and a non-panicking `WindowLayoutsChanged` leave
it true; the urgency events leave it true exactly when the named entity
is present. -/
theorem C5_amended_redraw_flag_characterization :
    (∀ (s : State) (b : Bool) (e : Event),
      update { s with needsRedraw := b } e = update s e)
  ∧ (∀ (s : State) (wks : List Workspace),
      (update s (Event.workspacesChanged wks)).map State.needsRedraw =
        some (wks.any fun wk => wk.isFocused && wk.id != s.currentWorkspaceId))
  ∧ (∀ (s : State) (id : Nat) (ts : Option Timestamp),
      (update s (Event.windowFocusTimestampChanged id ts)).map State.needsRedraw =
        some false)
  ∧ (∀ (s : State) (w : Window),
      (update s (Event.windowOpenedOrChanged w)).map State.needsRedraw = some true)
  ∧ (∀ (s : State) (oid : Option Nat),
      (update s (Event.windowFocusChanged oid)).map State.needsRedraw = some true)
  ∧ (∀ (s : State) (id : Nat),
      (update s (Event.windowClosed id)).map State.needsRedraw = some true)
  ∧ (∀ (s : State) (ws : List Window),
      (update s (Event.windowsChanged ws)).map State.needsRedraw = some true)
  ∧ (∀ (s : State) (id : Nat) (f : Bool),
      (update s (Event.workspaceActivated id f)).map State.needsRedraw = some true)
  ∧ (∀ (s : State) (changes : List (Nat × WindowLayout)) (s' : State),
      update s (Event.windowLayoutsChanged changes) = some s' →
        s'.needsRedraw = true)
  ∧ (∀ (s : State) (id : Nat) (u : Bool),
      (update s (Event.windowUrgencyChanged id u)).map State.needsRedraw =
        some (mapContains id s.windows))
  ∧ (∀ (s : State) (id : Nat) (u : Bool),
      (update s (Event.workspaceUrgencyChanged id u)).map State.needsRedraw =
        some (mapContains id s.workspaces)) := by
  refine ⟨fun s b e => rfl, ?_, ?_, ?_, ?_, ?_, ?_, ?_, ?_, ?_, ?_⟩
  · intro s wks
    show some ((applyWorkspacesChanged { s with needsRedraw := false } wks).needsRedraw)
      = _
    unfold applyWorkspacesChanged
    rw [wkFold_flag]
    simp
  · intro s id ts
    show some ((applyWindowFocusTimestampChanged { s with needsRedraw := false } id
      ts).needsRedraw) = some false
    obtain ⟨_, _, h3⟩ :=
      applyWindowFocusTimestampChanged_preserves { s with needsRedraw := false } id ts
    rw [h3]
  · intro s w
    show some ((applyWindowOpenedOrChanged { s with needsRedraw := false } w).needsRedraw)
      = some true
    rw [applyWindowOpenedOrChanged_flag]
  · intro s oid
    show some ((applyWindowFocusChanged { s with needsRedraw := false } oid).needsRedraw)
      = some true
    rw [applyWindowFocusChanged_flag]
  · intro s id
    show some ((applyWindowClosed { s with needsRedraw := false } id).needsRedraw)
      = some true
    rw [applyWindowClosed_flag]
  · intro s ws
    show some ((applyWindowsChanged { s with needsRedraw := false } ws).needsRedraw)
      = some true
    unfold applyWindowsChanged
    obtain ⟨_, _, h3⟩ := winFold_preserves ws _
    rw [h3]
  · intro s id f
    show some ((applyWorkspaceActivated { s with needsRedraw := false } id f).needsRedraw)
      = some true
    rw [applyWorkspaceActivated_flag]
  · intro s changes s' h
    have h' : changes.foldl windowLayoutsChangedStep
        (some { { s with needsRedraw := false } with needsRedraw := true }) = some s' := by
      simpa [update, applyWindowLayoutsChanged] using h
    obtain ⟨_, _, h3⟩ := layoutsFold_preserves changes _ _ h'
    exact h3 rfl
  · intro s id u
    show some ((applyWindowUrgencyChanged { s with needsRedraw := false } id u).needsRedraw)
      = _
    rw [applyWindowUrgencyChanged_flag]
    simp
  · intro s id u
    show some ((applyWorkspaceUrgencyChanged { s with needsRedraw := false } id
      u).needsRedraw) = _
    rw [applyWorkspaceUrgencyChanged_flag]
    simp

/-- C5 witness: the layouts conjunct of the characterization applied to
a concrete successful layout change: window 1 open, then a layout batch
for window 1; the flag ends true. -/
theorem C5_amended_redraw_flag_characterization_witness :
    ((update openOneResult (Event.windowLayoutsChanged [(1, tiledLayout 2)])).getD
      NewNiriState).needsRedraw = true := by
  have h := C5_amended_redraw_flag_characterization
  exact h.2.2.2.2.2.2.2.2.1 openOneResult [(1, tiledLayout 2)] _ rfl

/-- C6 (amended): for every sequence of events from the empty state in
which each `WorkspacesChanged` snapshot is well formed (no two active
workspaces with the same present output and distinct ids — what an
honest compositor emits), after each `Apply`, every output has at most
one active workspace. -/
theorem C6_amended_one_active_per_output (evs : List Event)
    (hwf : ∀ e ∈ evs, eventWF e) (s' : State)
    (h : updateSeq NewNiriState evs = some s') :
    ∀ out : String, activeOnOutput s' out ≤ 1 :=
  updateSeq_active_le_one evs NewNiriState s' hwf (fun _ => Nat.zero_le 1) h

/-- C6 witness: the invariant instantiated on the one-event sequence
carrying a single active workspace on output X. -/
theorem C6_amended_one_active_per_output_witness :
    activeOnOutput singleActiveResult "X" ≤ 1 := by
  refine C6_amended_one_active_per_output singleActiveEvents ?_ singleActiveResult rfl "X"
  intro e he
  simp only [singleActiveEvents, List.mem_singleton] at he
  subst he
  intro w1 h1 w2 h2 _ _ out _ _
  rw [List.mem_singleton] at h1 h2
  rw [h1, h2]

lemma lookup_wkInsertFold_none (wks : List Workspace) :
    ∀ (m : List (Nat × Workspace)) (id : Nat), mapLookup id m = none →
      id ∉ wks.map Workspace.id →
      mapLookup id (wks.foldl (fun m wk => mapInsert wk.id wk m) m) = none := by
  induction wks with
  | nil =>
    intro m id hm _
    exact hm
  | cons wk rest ih =>
    intro m id hm hid
    simp only [List.map_cons, List.mem_cons] at hid
    push_neg at hid
    simp only [List.foldl_cons]
    exact ih _ id (by rw [mapLookup_mapInsert_ne hid.1]; exact hm) hid.2

/-- C7: two consecutive `WorkspacesChanged` snapshots are full
replacements: any workspace id absent from the second list is absent
from the workspace map afterwards. -/
theorem C7_workspacesChanged_full_replace (s s' : State)
    (wks1 wks2 : List Workspace) (id : Nat)
    (h : updateSeq s
      [Event.workspacesChanged wks1, Event.workspacesChanged wks2] = some s')
    (hid : id ∉ wks2.map Workspace.id) :
    mapLookup id s'.workspaces = none := by
  obtain rfl : applyWorkspacesChanged
      { applyWorkspacesChanged { s with needsRedraw := false } wks1 with
        needsRedraw := false } wks2 = s' := by
    simpa [updateSeq, update] using h
  unfold applyWorkspacesChanged
  rw [wkFold_workspaces]
  exact lookup_wkInsertFold_none wks2 _ id rfl hid

/-- C7 witness: snapshots [workspace 1, workspace 2] then
[workspace 1]: workspace id 2 is gone from the map. -/
theorem C7_workspacesChanged_full_replace_witness :
    mapLookup 2 replaceResult.workspaces = none :=
  C7_workspacesChanged_full_replace NewNiriState replaceResult
    [mkWorkspace 1 (some "X") true false, mkWorkspace 2 (some "X") false false]
    [mkWorkspace 1 (some "X") true false] 2 rfl (by decide)

/-- C9: every window-targeted event (opened-or-changed, focus-changed,
focus-timestamp-changed, closed, layouts-changed, windows-changed,
urgency-changed), whenever it completes, leaves the workspace map and
the focused-workspace cursor exactly unchanged. -/
theorem C9_window_events_leave_workspaces (s s' : State) (e : Event)
    (hw : isWindowEvent e = true) (h : update s e = some s') :
    s'.workspaces = s.workspaces ∧ s'.currentWorkspaceId = s.currentWorkspaceId :=
  window_event_preserves_workspaces hw h

/-- C9 witness: closing window 10 in the rendering-scenario state keeps
its workspace map and workspace cursor. -/
theorem C9_window_events_leave_workspaces_witness :
    ((update c8State (Event.windowClosed 10)).getD NewNiriState).workspaces =
        c8State.workspaces ∧
      ((update c8State (Event.windowClosed 10)).getD NewNiriState).currentWorkspaceId =
        c8State.currentWorkspaceId :=
  C9_window_events_leave_workspaces c8State _ (Event.windowClosed 10) rfl rfl

end WNW
